import Mathlib

/-!
Verification of the planning-session tracker in `src/index.ts`
(`CleanCodePlanningServer`): the validator `validateCodePlanningData`,
the renderer `formatCodeReflection`, and the operation
`processCodePlanning` over the instance state `reflectionHistory` /
`branches`.

The embedding models JavaScript field values as an inductive `JSValue`
(strings, integer numbers, booleans, `null`, `undefined`) with JS
truthiness; an incoming request object is a record of such values
(an absent field is `undefined`).  TS numbers are IEEE doubles, but every
behaviour the claims touch only distinguishes zero / non-zero integers,
so numbers are modelled as `Int`.  String lengths in JS (`.length`,
`padEnd`) count UTF-16 code units, modelled by `utf16Len`.  The chalk
colour wrappers are the literal ANSI escape sequences chalk emits.
The `console.error` diagnostic write is modelled as the third component
of the result (the emitted text), so that its irrelevance to state and
payload is provable.  The `branches` object is a plain object literal, so
the `!this.branches[branchId]` guard consults the prototype chain: a
branchId naming an `Object.prototype` property (`objectProtoKeys`) makes
the subsequent `.push` throw a TypeError that the top-level catch turns
into an error payload, after the history push and before any rendering.
-/

/-- A JavaScript field value as far as this program inspects it. -/
inductive JSValue where
  | str (s : String)
  | num (n : Int)
  | bool (b : Bool)
  | null
  | undefined
deriving DecidableEq, Repr

/-- JS truthiness: `""`, `0`, `false`, `null`, `undefined` are falsy. -/
def JSValue.truthy : JSValue → Bool
  | .str s => s ≠ ""
  | .num n => n ≠ 0
  | .bool b => b
  | .null => false
  | .undefined => false

/-- JS type test `typeof v === "string"`. -/
def JSValue.isStr : JSValue → Bool
  | .str _ => true
  | _ => false

/-- JS type test `typeof v === "number"`. -/
def JSValue.isNum : JSValue → Bool
  | .num _ => true
  | _ => false

/-- JS type test `typeof v === "boolean"`. -/
def JSValue.isBool : JSValue → Bool
  | .bool _ => true
  | _ => false

/-- JS string coercion `String(v)`, as performed by template literals
and by property-key lookup `obj[v]`. -/
def JSValue.jsToString : JSValue → String
  | .str s => s
  | .num n => toString n
  | .bool b => if b then "true" else "false"
  | .null => "null"
  | .undefined => "undefined"

/-- The raw request object handed to `processCodePlanning` (the
`input: unknown` parameter): each property the code reads, an absent
property being `undefined`. -/
structure JSInput where
  codeReflection : JSValue := .undefined
  stepNumber : JSValue := .undefined
  totalSteps : JSValue := .undefined
  isRevision : JSValue := .undefined
  revisesStep : JSValue := .undefined
  branchFromStep : JSValue := .undefined
  branchId : JSValue := .undefined
  needsMoreSteps : JSValue := .undefined
  nextStepNeeded : JSValue := .undefined
deriving DecidableEq, Repr

/-- The interface `CodePlanningData` after validation.  The four checked
fields get their checked types; the optional fields are unchecked casts
in the source (`as boolean | undefined` etc.), so they stay `JSValue`. -/
structure CodePlanningData where
  codeReflection : String
  stepNumber : Int
  totalSteps : Int
  isRevision : JSValue
  revisesStep : JSValue
  branchFromStep : JSValue
  branchId : JSValue
  needsMoreSteps : JSValue
  nextStepNeeded : Bool
deriving DecidableEq, Repr

def reflectionErrMsg : String := "Invalid codeReflection: must be a string"

def stepNumberErrMsg : String := "Invalid stepNumber: must be a number"

def totalStepsErrMsg : String := "Invalid totalSteps: must be a number"

def nextStepNeededErrMsg : String := "Invalid nextStepNeeded: must be a boolean"

/-- Translation of `validateCodePlanningData` (src/index.ts:29-56).  Each guard
`if (!data.f || typeof data.f !== "T") throw` fails exactly when the
value is not a truthy T; `nextStepNeeded` is checked by type only. -/
def validateCodePlanningData (input : JSInput) : Except String CodePlanningData :=
  if !(input.codeReflection.truthy && input.codeReflection.isStr) then
    .error reflectionErrMsg
  else if !(input.stepNumber.truthy && input.stepNumber.isNum) then
    .error stepNumberErrMsg
  else if !(input.totalSteps.truthy && input.totalSteps.isNum) then
    .error totalStepsErrMsg
  else if !input.nextStepNeeded.isBool then
    .error nextStepNeededErrMsg
  else
    .ok
      { codeReflection := input.codeReflection.jsToString
        stepNumber :=
          match input.stepNumber with
          | .num n => n
          | _ => 0
        totalSteps :=
          match input.totalSteps with
          | .num n => n
          | _ => 0
        isRevision := input.isRevision
        revisesStep := input.revisesStep
        branchFromStep := input.branchFromStep
        branchId := input.branchId
        needsMoreSteps := input.needsMoreSteps
        nextStepNeeded :=
          match input.nextStepNeeded with
          | .bool b => b
          | _ => false }

/-- UTF-16 code-unit count of a string: JS `.length`.  Code points above
U+FFFF (such as the emoji in the step labels) take two units. -/
def utf16Len (s : String) : Nat :=
  s.data.foldl (fun n c => n + (if c.toNat ≥ 0x10000 then 2 else 1)) 0

/-- JS `"c".repeat(n)` for a single BMP character. -/
def repeatChar (c : Char) (n : Nat) : String :=
  String.mk (List.replicate n c)

/-- JS `s.padEnd(n)`: append spaces up to UTF-16 length `n`
(no-op when `s` is already at least that long). -/
def padEnd (s : String) (n : Nat) : String :=
  s ++ repeatChar ' ' (n - utf16Len s)

/-- Model of `chalk.yellow`: wrap in the ANSI open/close codes chalk emits. -/
def chalkYellow (s : String) : String := "\x1b[33m" ++ s ++ "\x1b[39m"

/-- Model of `chalk.green`. -/
def chalkGreen (s : String) : String := "\x1b[32m" ++ s ++ "\x1b[39m"

/-- Model of `chalk.blue`. -/
def chalkBlue (s : String) : String := "\x1b[34m" ++ s ++ "\x1b[39m"

def revisionTag : String := "🔄 Revision"

def alternativeTag : String := "🌿 Alternative"

def codeStepTag : String := "🧩 Code Step"

/-- Translation of `formatCodeReflection` (src/index.ts:58-94), done literally:
the coloured label and context suffix by precedence, the header, a
border of `max(header.length, codeReflection.length) + 4` box-drawing
dashes, and the framed block (leading newline as in the template
literal; the reflection line padded to `border.length - 2`). -/
def formatCodeReflection (d : CodePlanningData) : String :=
  let labelCtx : String × String :=
    if d.isRevision.truthy then
      (chalkYellow revisionTag,
       " (revising step " ++ d.revisesStep.jsToString ++ ")")
    else if d.branchFromStep.truthy then
      (chalkGreen alternativeTag,
       " (from step " ++ d.branchFromStep.jsToString ++ ", ID: "
         ++ d.branchId.jsToString ++ ")")
    else
      (chalkBlue codeStepTag, "")
  let header : String :=
    labelCtx.1 ++ " " ++ toString d.stepNumber ++ "/" ++ toString d.totalSteps
      ++ labelCtx.2
  let border : String :=
    repeatChar '─' (max (utf16Len header) (utf16Len d.codeReflection) + 4)
  "\n┌" ++ border ++ "┐\n│ " ++ header ++ " │\n├" ++ border ++ "┤\n│ "
    ++ padEnd d.codeReflection (utf16Len border - 2) ++ " │\n└" ++ border ++ "┘"

/-- The instance state: `reflectionHistory` and `branches`.  The
`branches` object is an association list in key-insertion order
(string keys; the JS quirk that integer-like keys enumerate first in
`Object.keys` is abstracted away — every claim treats the key list as
a set). -/
structure ServerState where
  reflectionHistory : List CodePlanningData
  branches : List (String × List CodePlanningData)
deriving DecidableEq, Repr

def initialState : ServerState := ⟨[], []⟩

/-- Lookup `this.branches[id]`. -/
def branchLookup (bs : List (String × List CodePlanningData)) (k : String) :
    Option (List CodePlanningData) :=
  match bs.find? (fun p => p.1 == k) with
  | some p => some p.2
  | none => none

/-- The property names a plain JS object literal inherits from
`Object.prototype`.  The `branches` object (src/index.ts:27) has no own
entry for these keys initially, yet `this.branches[k]` yields a truthy
inherited value for them, so the `!this.branches[k]` guard at line 110
wrongly passes and line 113 calls `.push` on a non-array, throwing a
TypeError. -/
def objectProtoKeys : List String :=
  ["constructor", "hasOwnProperty", "isPrototypeOf", "propertyIsEnumerable",
   "toLocaleString", "toString", "valueOf", "__proto__",
   "__defineGetter__", "__defineSetter__", "__lookupGetter__",
   "__lookupSetter__"]

/-- The message of the TypeError thrown when `.push` is invoked on an
inherited `Object.prototype` property (src/index.ts:113); the wording is
the JS engine's (V8), and no theorem depends on its exact text. -/
def protoPushErrMsg : String :=
  "this.branches[validatedInput.branchId].push is not a function"

/-- Translation of
`if (!this.branches[id]) this.branches[id] = []; this.branches[id].push(v)`
(src/index.ts:110-113) on the non-throwing path: when `k` is an own key
(its value is always a non-empty array, hence truthy) the push appends;
when `k` is absent and not an `Object.prototype` property the lookup is
`undefined`, the branch is initialized and the push appends.  The
throwing prototype-key path is handled in `processCodePlanningGen`. -/
def branchesPush (bs : List (String × List CodePlanningData)) (k : String)
    (v : CodePlanningData) : List (String × List CodePlanningData) :=
  if bs.any (fun p => p.1 == k) then
    bs.map (fun p => if p.1 == k then (p.1, p.2 ++ [v]) else p)
  else
    bs ++ [(k, [v])]

/-- Translation of `Object.keys(this.branches)`. -/
def branchKeys (bs : List (String × List CodePlanningData)) : List String :=
  bs.map (fun p => p.1)

/-- The success payload serialized at src/index.ts:123-133. -/
structure SuccessPayload where
  stepNumber : Int
  totalSteps : Int
  nextStepNeeded : Bool
  branches : List String
  reflectionHistoryLength : Nat
deriving DecidableEq, Repr

/-- The error payload serialized at src/index.ts:142-149. -/
structure ErrorPayload where
  error : String
  status : String
deriving DecidableEq, Repr

/-- The outcome of `processCodePlanning`: the success payload (no error
flag), or the error payload together with the `isError` flag. -/
inductive RecordResult where
  | success (payload : SuccessPayload)
  | failure (payload : ErrorPayload) (isError : Bool)
deriving DecidableEq, Repr

/-- Returned `totalSteps` of a success result, if the result is one. -/
def RecordResult.totalStepsOut : RecordResult → Option Int
  | .success p => some p.totalSteps
  | .failure _ _ => none

/-- The `totalSteps` self-correction (src/index.ts:103-105). -/
def adjustStep (v : CodePlanningData) : CodePlanningData :=
  if v.totalSteps < v.stepNumber then { v with totalSteps := v.stepNumber } else v

/-- Translation of `processCodePlanning` (src/index.ts:96-155), generalized over the
rendering function so its non-interference is statable.  Returns the
new state, the result, and the text written to `console.error`
(`none` on the two error paths, which emit nothing).  The branch block
models the JS property lookup `!this.branches[branchId]` through the
prototype chain: with an own key, or an absent key that is not an
`Object.prototype` property, the push proceeds; a branchId naming an
`Object.prototype` property passes the truthy guard with the inherited
value and the subsequent `.push` throws a TypeError, which the catch at
line 137 converts into an error payload — after the history push at
line 107 has already happened and before anything is rendered. -/
def processCodePlanningGen (fmt : CodePlanningData → String)
    (st : ServerState) (input : JSInput) :
    ServerState × RecordResult × Option String :=
  match validateCodePlanningData input with
  | .error msg => (st, .failure ⟨msg, "failed"⟩ true, none)
  | .ok v0 =>
    let v := adjustStep v0
    let hist := st.reflectionHistory ++ [v]
    if v.branchFromStep.truthy && v.branchId.truthy then
      let k := v.branchId.jsToString
      if st.branches.any (fun p => p.1 == k) || !(objectProtoKeys.contains k) then
        let brs := branchesPush st.branches k v
        (⟨hist, brs⟩,
         .success ⟨v.stepNumber, v.totalSteps, v.nextStepNeeded,
                   branchKeys brs, hist.length⟩,
         some (fmt v))
      else
        (⟨hist, st.branches⟩, .failure ⟨protoPushErrMsg, "failed"⟩ true, none)
    else
      (⟨hist, st.branches⟩,
       .success ⟨v.stepNumber, v.totalSteps, v.nextStepNeeded,
                 branchKeys st.branches, hist.length⟩,
       some (fmt v))

/-- The operation `processCodePlanning` as in the source, with the renderer
`formatCodeReflection`. -/
def processCodePlanning (st : ServerState) (input : JSInput) :
    ServerState × RecordResult × Option String :=
  processCodePlanningGen formatCodeReflection st input

/-- A whole session: fold `processCodePlanning` over a call sequence
starting from the freshly constructed (empty) server. -/
def runCalls (inputs : List JSInput) : ServerState :=
  inputs.foldl (fun st i => (processCodePlanning st i).1) initialState

/-! ## Helper lemmas -/

theorem adjustStep_stepNumber (v : CodePlanningData) :
    (adjustStep v).stepNumber = v.stepNumber := by
  unfold adjustStep; split <;> rfl

theorem adjustStep_nextStepNeeded (v : CodePlanningData) :
    (adjustStep v).nextStepNeeded = v.nextStepNeeded := by
  unfold adjustStep; split <;> rfl

theorem adjustStep_codeReflection (v : CodePlanningData) :
    (adjustStep v).codeReflection = v.codeReflection := by
  unfold adjustStep; split <;> rfl

theorem adjustStep_branchFromStep (v : CodePlanningData) :
    (adjustStep v).branchFromStep = v.branchFromStep := by
  unfold adjustStep; split <;> rfl

theorem adjustStep_branchId (v : CodePlanningData) :
    (adjustStep v).branchId = v.branchId := by
  unfold adjustStep; split <;> rfl

theorem adjustStep_le (v : CodePlanningData) :
    (adjustStep v).stepNumber ≤ (adjustStep v).totalSteps := by
  unfold adjustStep
  split
  · simp
  · rename_i h
    omega

theorem processGen_error (fmt : CodePlanningData → String) (st : ServerState)
    (i : JSInput) (msg : String) (h : validateCodePlanningData i = .error msg) :
    processCodePlanningGen fmt st i = (st, .failure ⟨msg, "failed"⟩ true, none) := by
  simp [processCodePlanningGen, h]

theorem processGen_ok_history (fmt : CodePlanningData → String)
    (st : ServerState) (i : JSInput) (v : CodePlanningData)
    (h : validateCodePlanningData i = .ok v) :
    ((processCodePlanningGen fmt st i).1).reflectionHistory
      = st.reflectionHistory ++ [adjustStep v] := by
  unfold processCodePlanningGen
  simp only [h]
  split
  · split <;> rfl
  · rfl

theorem processGen_success_inv (fmt : CodePlanningData → String)
    (st : ServerState) (i : JSInput) (v : CodePlanningData) (p : SuccessPayload)
    (h : validateCodePlanningData i = .ok v)
    (hp : (processCodePlanningGen fmt st i).2.1 = RecordResult.success p) :
    p = ⟨(adjustStep v).stepNumber, (adjustStep v).totalSteps,
         (adjustStep v).nextStepNeeded,
         branchKeys ((processCodePlanningGen fmt st i).1).branches,
         ((processCodePlanningGen fmt st i).1).reflectionHistory.length⟩ := by
  unfold processCodePlanningGen at hp ⊢
  simp only [h] at hp ⊢
  split at hp
  · rename_i hb
    split at hp
    · rename_i hk
      rw [if_pos hb, if_pos hk]
      injection hp with hpp
      exact hpp.symm
    · simp at hp
  · rename_i hb
    rw [if_neg hb]
    injection hp with hpp
    exact hpp.symm

theorem processGen_push_state (fmt : CodePlanningData → String)
    (st : ServerState) (i : JSInput) (v : CodePlanningData)
    (h : validateCodePlanningData i = .ok v)
    (hcond : ((adjustStep v).branchFromStep.truthy
        && (adjustStep v).branchId.truthy) = true)
    (hc : (st.branches.any
          (fun p => p.1 == (adjustStep v).branchId.jsToString)
        || !(objectProtoKeys.contains (adjustStep v).branchId.jsToString))
        = true) :
    (processCodePlanningGen fmt st i).1
      = ⟨st.reflectionHistory ++ [adjustStep v],
         branchesPush st.branches ((adjustStep v).branchId.jsToString)
           (adjustStep v)⟩ := by
  unfold processCodePlanningGen
  simp only [h]
  rw [if_pos hcond, if_pos hc]

theorem branchLookup_isSome_any (bs : List (String × List CodePlanningData))
    (k : String) (l : List CodePlanningData)
    (h : branchLookup bs k = some l) :
    bs.any (fun p => p.1 == k) = true := by
  unfold branchLookup at h
  cases hfind : bs.find? (fun p => p.1 == k) with
  | none =>
    rw [hfind] at h
    cases h
  | some q =>
    exact List.any_eq_true.mpr
      ⟨q, List.mem_of_find?_eq_some hfind,
       by simpa using List.find?_some hfind⟩

theorem truthy_str_exists (w : JSValue) (h : (w.truthy && w.isStr) = true) :
    ∃ s, w = JSValue.str s ∧ s ≠ "" := by
  cases w <;> simp_all [JSValue.truthy, JSValue.isStr]

theorem validate_ok_reflection (i : JSInput) (v : CodePlanningData)
    (h : validateCodePlanningData i = .ok v) : v.codeReflection ≠ "" := by
  unfold validateCodePlanningData at h
  split at h
  · simp at h
  · split at h
    · simp at h
    · split at h
      · simp at h
      · split at h
        · simp at h
        · rename_i h1 h2 h3 h4
          injection h with hv
          subst hv
          have hc : (i.codeReflection.truthy && i.codeReflection.isStr) = true := by
            rcases hcc : i.codeReflection.truthy && i.codeReflection.isStr with _ | _
            · exact absurd (by simp [hcc]) h1
            · rfl
          obtain ⟨s, hs, hne⟩ := truthy_str_exists _ hc
          rw [hs]
          simpa [JSValue.jsToString] using hne

theorem find?_branchesPush_map (bs : List (String × List CodePlanningData))
    (k k' : String) (v : CodePlanningData) :
    (bs.map (fun p => if p.1 == k then (p.1, p.2 ++ [v]) else p)).find?
        (fun p => p.1 == k')
      = (bs.find? (fun p => p.1 == k')).map
          (fun p => if p.1 == k then (p.1, p.2 ++ [v]) else p) := by
  induction bs with
  | nil => rfl
  | cons p bs ih =>
    have hkey : ((if (p.1 == k) = true then (p.1, p.2 ++ [v]) else p).1) = p.1 := by
      split <;> rfl
    simp only [List.map_cons, List.find?_cons, hkey]
    cases hp : p.1 == k' with
    | true => rfl
    | false => simp only [ih]

theorem branchLookup_push_self (bs : List (String × List CodePlanningData))
    (k : String) (v : CodePlanningData) :
    branchLookup (branchesPush bs k v) k
      = some ((branchLookup bs k).getD [] ++ [v]) := by
  unfold branchesPush branchLookup
  by_cases hany : (bs.any fun p => p.1 == k) = true
  · rw [if_pos hany, find?_branchesPush_map]
    obtain ⟨x, hx, hxk⟩ := List.any_eq_true.mp hany
    cases hfind : bs.find? (fun p => p.1 == k) with
    | none => exact absurd (List.find?_eq_none.mp hfind x hx) (by simp [hxk])
    | some q =>
      have hq : q.1 = k := by simpa using List.find?_some hfind
      simp [hq]
  · rw [if_neg hany, List.find?_append]
    have hnone : bs.find? (fun p => p.1 == k) = none := by
      rw [List.find?_eq_none]
      intro x hx hpx
      exact hany (List.any_eq_true.mpr ⟨x, hx, hpx⟩)
    simp [hnone, List.find?_cons_of_pos]

theorem branchLookup_push_ne (bs : List (String × List CodePlanningData))
    (k k' : String) (v : CodePlanningData) (hne : k' ≠ k) :
    branchLookup (branchesPush bs k v) k' = branchLookup bs k' := by
  unfold branchesPush branchLookup
  by_cases hany : (bs.any fun p => p.1 == k) = true
  · rw [if_pos hany, find?_branchesPush_map]
    cases hfind : bs.find? (fun p => p.1 == k') with
    | none => simp
    | some q =>
      have hq : q.1 = k' := by simpa [beq_iff_eq] using List.find?_some hfind
      have hqk : ¬(q.1 = k) := by
        rw [hq]; exact hne
      simp [hqk]
  · rw [if_neg hany, List.find?_append]
    have hkk : ¬(k = k') := fun h => hne h.symm
    cases hfind : bs.find? (fun p => p.1 == k') with
    | some q => simp
    | none => simp [List.find?_cons, hkk]

theorem utf16Len_replicate_aux (c : Char) (h : c.toNat < 0x10000) :
    ∀ (n a : Nat),
      (List.replicate n c).foldl
        (fun m x => m + (if x.toNat ≥ 0x10000 then 2 else 1)) a = a + n
  | 0, a => by simp
  | n + 1, a => by
    rw [List.replicate_succ, List.foldl_cons, if_neg (by omega)]
    rw [utf16Len_replicate_aux c h n (a + 1)]
    omega

theorem utf16Len_repeatChar (c : Char) (h : c.toNat < 0x10000) (n : Nat) :
    utf16Len (repeatChar c n) = n := by
  show (List.replicate n c).foldl _ 0 = n
  rw [utf16Len_replicate_aux c h n 0]
  omega

theorem utf16Len_border (n : Nat) : utf16Len (repeatChar '─' n) = n :=
  utf16Len_repeatChar _ (by decide) n

/-! ## Concrete inputs used by the witnesses -/

def sampleInput : JSInput :=
  { codeReflection := .str "plan", stepNumber := .num 5, totalSteps := .num 3,
    nextStepNeeded := .bool true }

def sampleV : CodePlanningData :=
  { codeReflection := "plan", stepNumber := 5, totalSteps := 3,
    isRevision := .undefined, revisesStep := .undefined,
    branchFromStep := .undefined, branchId := .undefined,
    needsMoreSteps := .undefined, nextStepNeeded := true }

/-- The success payload the sample call produces (stepNumber 5 adjusts
totalSteps from 3 to 5, no branches, one stored step). -/
def samplePayload : SuccessPayload :=
  { stepNumber := 5, totalSteps := 5, nextStepNeeded := true,
    branches := [], reflectionHistoryLength := 1 }

def emptyInput : JSInput := {}

def emptyReflInput : JSInput :=
  { codeReflection := .str "", stepNumber := .num 1, totalSteps := .num 1,
    nextStepNeeded := .bool true }

def zeroStepInput : JSInput :=
  { codeReflection := .str "x", stepNumber := .num 0, totalSteps := .num 3,
    nextStepNeeded := .bool true }

def onlyReflInput : JSInput := { codeReflection := .str "x" }

/-! ## Claims -/

/-- C1: on a call that validates and returns a success result (a
successful recordStep call), if the input stepNumber exceeds totalSteps
the returned totalSteps equals the input stepNumber and the stored step
carries that adjusted value; otherwise the returned totalSteps is the
input totalSteps unchanged. -/
theorem recordStep_totalSteps_selfCorrect (st : ServerState) (i : JSInput)
    (v : CodePlanningData) (p : SuccessPayload)
    (h : validateCodePlanningData i = .ok v)
    (hp : (processCodePlanning st i).2.1 = RecordResult.success p) :
    (v.totalSteps < v.stepNumber →
      p.totalSteps = v.stepNumber ∧
      ((processCodePlanning st i).1).reflectionHistory =
        st.reflectionHistory ++ [{ v with totalSteps := v.stepNumber }]) ∧
    (v.stepNumber ≤ v.totalSteps → p.totalSteps = v.totalSteps) := by
  have hinv : p = ⟨(adjustStep v).stepNumber, (adjustStep v).totalSteps,
      (adjustStep v).nextStepNeeded,
      branchKeys ((processCodePlanning st i).1).branches,
      ((processCodePlanning st i).1).reflectionHistory.length⟩ :=
    processGen_success_inv formatCodeReflection st i v p h hp
  have hhist : ((processCodePlanning st i).1).reflectionHistory
      = st.reflectionHistory ++ [adjustStep v] :=
    processGen_ok_history formatCodeReflection st i v h
  constructor
  · intro hlt
    constructor
    · rw [hinv]
      simp [adjustStep, hlt]
    · rw [hhist]
      simp [adjustStep, hlt]
  · intro hle
    rw [hinv]
    simp [adjustStep, not_lt.mpr hle]

/-- C1 witness: a concrete call with stepNumber 5, totalSteps 3 succeeds
and returns totalSteps 5. -/
theorem recordStep_totalSteps_selfCorrect_witness :
    sampleV.totalSteps < sampleV.stepNumber ∧ samplePayload.totalSteps = 5 :=
  ⟨by decide,
   ((recordStep_totalSteps_selfCorrect initialState sampleInput sampleV
      samplePayload rfl rfl).1 (by decide)).1⟩

/-- C2: a call that fails validation returns exactly the error payload
with the validation message and status "failed", flagged as an error,
and leaves the state (history and branches) unchanged. -/
theorem recordStep_error_result (st : ServerState) (i : JSInput) (msg : String)
    (h : validateCodePlanningData i = .error msg) :
    processCodePlanning st i = (st, .failure ⟨msg, "failed"⟩ true, none) :=
  processGen_error formatCodeReflection st i msg h

/-- C2 witness: the empty request fails with the reflection message and
the state is returned untouched. -/
theorem recordStep_error_result_witness :
    processCodePlanning initialState emptyInput
      = (initialState, .failure ⟨reflectionErrMsg, "failed"⟩ true, none) :=
  recordStep_error_result initialState emptyInput reflectionErrMsg rfl

/-- C3: a numeric literal 0 in stepNumber or totalSteps is treated exactly
as a missing field: validation gives the same result as with the field
absent, and (when the preceding checks pass) the message is the
corresponding "must be a number" error. -/
theorem validate_zero_treated_as_missing (i : JSInput) :
    (i.stepNumber = JSValue.num 0 →
      validateCodePlanningData i
        = validateCodePlanningData { i with stepNumber := .undefined }) ∧
    (i.totalSteps = JSValue.num 0 →
      validateCodePlanningData i
        = validateCodePlanningData { i with totalSteps := .undefined }) ∧
    ((i.codeReflection.truthy && i.codeReflection.isStr) = true →
      i.stepNumber = JSValue.num 0 →
      validateCodePlanningData i = .error stepNumberErrMsg) ∧
    ((i.codeReflection.truthy && i.codeReflection.isStr) = true →
      (i.stepNumber.truthy && i.stepNumber.isNum) = true →
      i.totalSteps = JSValue.num 0 →
      validateCodePlanningData i = .error totalStepsErrMsg) := by
  refine ⟨?_, ?_, ?_, ?_⟩
  · intro hs
    unfold validateCodePlanningData
    rw [hs]
    simp [JSValue.truthy]
  · intro ht
    unfold validateCodePlanningData
    rw [ht]
    simp [JSValue.truthy]
  · intro hc hs
    rw [Bool.and_eq_true] at hc
    obtain ⟨h1, h2⟩ := hc
    have h0 : (JSValue.num 0).truthy = false := by decide
    unfold validateCodePlanningData
    rw [hs]
    simp [h1, h2, h0]
  · intro hc hsn ht
    rw [Bool.and_eq_true] at hc
    rw [Bool.and_eq_true] at hsn
    obtain ⟨h1, h2⟩ := hc
    obtain ⟨h3, h4⟩ := hsn
    have h0 : (JSValue.num 0).truthy = false := by decide
    unfold validateCodePlanningData
    rw [ht]
    simp [h1, h2, h3, h4, h0]

/-- C3 witness: stepNumber 0 validates identically to stepNumber absent
and yields the stepNumber error message. -/
theorem validate_zero_treated_as_missing_witness :
    validateCodePlanningData zeroStepInput
        = validateCodePlanningData { zeroStepInput with stepNumber := .undefined } ∧
    validateCodePlanningData zeroStepInput = .error stepNumberErrMsg :=
  ⟨(validate_zero_treated_as_missing zeroStepInput).1 rfl,
   (validate_zero_treated_as_missing zeroStepInput).2.2.1 (by decide) rfl⟩

/-- C5: every call that validates and returns a success result (a
successful recordStep call) has appended exactly one step to history, and
the success payload carries stepNumber, the post-adjustment totalSteps,
nextStepNeeded, the keys of the branches mapping, and the history length
measured after the append. -/
theorem recordStep_success_payload (st : ServerState) (i : JSInput)
    (v : CodePlanningData) (p : SuccessPayload)
    (h : validateCodePlanningData i = .ok v)
    (hp : (processCodePlanning st i).2.1 = RecordResult.success p) :
    ((processCodePlanning st i).1).reflectionHistory
        = st.reflectionHistory ++ [adjustStep v] ∧
    ((processCodePlanning st i).1).reflectionHistory.length
        = st.reflectionHistory.length + 1 ∧
    p = ⟨v.stepNumber, (adjustStep v).totalSteps, v.nextStepNeeded,
         branchKeys ((processCodePlanning st i).1).branches,
         ((processCodePlanning st i).1).reflectionHistory.length⟩ := by
  have hhist : ((processCodePlanning st i).1).reflectionHistory
      = st.reflectionHistory ++ [adjustStep v] :=
    processGen_ok_history formatCodeReflection st i v h
  have hinv : p = ⟨(adjustStep v).stepNumber, (adjustStep v).totalSteps,
      (adjustStep v).nextStepNeeded,
      branchKeys ((processCodePlanning st i).1).branches,
      ((processCodePlanning st i).1).reflectionHistory.length⟩ :=
    processGen_success_inv formatCodeReflection st i v p h hp
  refine ⟨hhist, ?_, ?_⟩
  · rw [hhist]
    simp
  · rw [hinv, adjustStep_stepNumber, adjustStep_nextStepNeeded]

/-- C5 witness: the concrete sample call succeeds, appends one step, and
returns the full payload. -/
theorem recordStep_success_payload_witness :
    ((processCodePlanning initialState sampleInput).1).reflectionHistory.length
      = initialState.reflectionHistory.length + 1 :=
  (recordStep_success_payload initialState sampleInput sampleV samplePayload
    rfl rfl).2.1

/-- C9: an input whose reflection field is the empty string fails with
"Invalid codeReflection: must be a string" and mutates no state; a
successfully validated step always stores a non-empty reflection. -/
theorem recordStep_empty_reflection (st : ServerState) (i : JSInput) :
    (i.codeReflection = JSValue.str "" →
      processCodePlanning st i
        = (st, .failure ⟨reflectionErrMsg, "failed"⟩ true, none)) ∧
    (∀ v, validateCodePlanningData i = .ok v → v.codeReflection ≠ "") := by
  constructor
  · intro hr
    have hv : validateCodePlanningData i = .error reflectionErrMsg := by
      unfold validateCodePlanningData
      rw [hr]
      simp [JSValue.truthy]
    exact processGen_error formatCodeReflection st i reflectionErrMsg hv
  · intro v h
    exact validate_ok_reflection i v h

/-- C9 witness: an empty-string reflection is rejected without mutation,
and the sample validated step stores a non-empty reflection. -/
theorem recordStep_empty_reflection_witness :
    processCodePlanning initialState emptyReflInput
        = (initialState, .failure ⟨reflectionErrMsg, "failed"⟩ true, none) ∧
    sampleV.codeReflection ≠ "" :=
  ⟨(recordStep_empty_reflection initialState emptyReflInput).1 rfl,
   (recordStep_empty_reflection initialState sampleInput).2 sampleV rfl⟩

/-- C10: validation reports the first failing check in the fixed order
reflection, stepNumber, totalSteps, nextStepNeeded; in particular the
input with every field absent yields the reflection message. -/
theorem validate_first_error_order (i : JSInput) :
    ((i.codeReflection.truthy && i.codeReflection.isStr) = false →
      validateCodePlanningData i = .error reflectionErrMsg) ∧
    ((i.codeReflection.truthy && i.codeReflection.isStr) = true →
      (i.stepNumber.truthy && i.stepNumber.isNum) = false →
      validateCodePlanningData i = .error stepNumberErrMsg) ∧
    ((i.codeReflection.truthy && i.codeReflection.isStr) = true →
      (i.stepNumber.truthy && i.stepNumber.isNum) = true →
      (i.totalSteps.truthy && i.totalSteps.isNum) = false →
      validateCodePlanningData i = .error totalStepsErrMsg) ∧
    ((i.codeReflection.truthy && i.codeReflection.isStr) = true →
      (i.stepNumber.truthy && i.stepNumber.isNum) = true →
      (i.totalSteps.truthy && i.totalSteps.isNum) = true →
      i.nextStepNeeded.isBool = false →
      validateCodePlanningData i = .error nextStepNeededErrMsg) ∧
    validateCodePlanningData emptyInput = .error reflectionErrMsg := by
  refine ⟨?_, ?_, ?_, ?_, rfl⟩ <;>
  · intros
    unfold validateCodePlanningData
    simp_all

/-- C10 witness: a request carrying only a reflection string is rejected
with the stepNumber message (the first failing later check). -/
theorem validate_first_error_order_witness :
    validateCodePlanningData onlyReflInput = .error stepNumberErrMsg :=
  (validate_first_error_order onlyReflInput).2.1 (by decide) (by decide)

def branchInput : JSInput :=
  { codeReflection := .str "alt", stepNumber := .num 2, totalSteps := .num 3,
    branchFromStep := .num 1, branchId := .str "retry",
    nextStepNeeded := .bool true }

def branchV : CodePlanningData :=
  { codeReflection := "alt", stepNumber := 2, totalSteps := 3,
    isRevision := .undefined, revisesStep := .undefined,
    branchFromStep := .num 1, branchId := .str "retry",
    needsMoreSteps := .undefined, nextStepNeeded := true }

def protoBranchInput : JSInput :=
  { codeReflection := .str "x", stepNumber := .num 2, totalSteps := .num 3,
    branchFromStep := .num 1, branchId := .str "constructor",
    nextStepNeeded := .bool true }

/-- C4 counterexample: a valid input with non-zero branchFromStep and the
non-empty branchId "constructor" appends nothing to any branch: the
`!this.branches[branchId]` guard passes on the inherited
`Object.prototype.constructor`, `.push` throws, and the call returns a
caught error result with `branches` still empty. -/
theorem recordStep_branch_append_cex :
    branchLookup
        ((processCodePlanning initialState protoBranchInput).1).branches
        "constructor" = none ∧
    ((processCodePlanning initialState protoBranchInput).1).branches = [] ∧
    (processCodePlanning initialState protoBranchInput).2.1
      = RecordResult.failure ⟨protoPushErrMsg, "failed"⟩ true :=
  ⟨rfl, rfl, rfl⟩

/-- C4 (amended): a valid step carrying a non-zero numeric branchFromStep
and a non-empty string branchId that is not the name of an
`Object.prototype` property appends exactly one entry to
branches[branchId], creating that branch when absent and leaving every
other branch untouched; a second such call with the same branchId extends
the same sequence to length 2 instead of creating a new branch. -/
theorem recordStep_branch_append (st : ServerState) (i i2 : JSInput)
    (v v2 : CodePlanningData) (s : String) (n n2 : Int)
    (h : validateCodePlanningData i = .ok v)
    (hbf : v.branchFromStep = .num n) (hn : n ≠ 0)
    (hbid : v.branchId = .str s) (hs : s ≠ "")
    (hsp : s ∉ objectProtoKeys)
    (h2 : validateCodePlanningData i2 = .ok v2)
    (hbf2 : v2.branchFromStep = .num n2) (hn2 : n2 ≠ 0)
    (hbid2 : v2.branchId = .str s) :
    branchLookup ((processCodePlanning st i).1).branches s
        = some ((branchLookup st.branches s).getD [] ++ [adjustStep v]) ∧
    (∀ k, k ≠ s →
      branchLookup ((processCodePlanning st i).1).branches k
        = branchLookup st.branches k) ∧
    (branchLookup st.branches s = none →
      branchLookup
          ((processCodePlanning ((processCodePlanning st i).1) i2).1).branches s
        = some [adjustStep v, adjustStep v2]) := by
  have hcond : ((adjustStep v).branchFromStep.truthy
      && (adjustStep v).branchId.truthy) = true := by
    rw [adjustStep_branchFromStep, adjustStep_branchId, hbf, hbid]
    simp [JSValue.truthy, hn, hs]
  have hkey : (adjustStep v).branchId.jsToString = s := by
    rw [adjustStep_branchId, hbid]
    rfl
  have hcond2 : ((adjustStep v2).branchFromStep.truthy
      && (adjustStep v2).branchId.truthy) = true := by
    rw [adjustStep_branchFromStep, adjustStep_branchId, hbf2, hbid2]
    simp [JSValue.truthy, hn2, hs]
  have hkey2 : (adjustStep v2).branchId.jsToString = s := by
    rw [adjustStep_branchId, hbid2]
    rfl
  have hcontains : objectProtoKeys.contains s = false := by
    cases hcc : objectProtoKeys.contains s
    · rfl
    · exact absurd (List.elem_iff.mp hcc) hsp
  have hc1 : (st.branches.any
        (fun p => p.1 == (adjustStep v).branchId.jsToString)
      || !(objectProtoKeys.contains (adjustStep v).branchId.jsToString))
      = true := by
    rw [hkey, hcontains]
    simp
  have hst1 : (processCodePlanning st i).1
      = ⟨st.reflectionHistory ++ [adjustStep v],
         branchesPush st.branches s (adjustStep v)⟩ := by
    have h0 : (processCodePlanning st i).1
        = ⟨st.reflectionHistory ++ [adjustStep v],
           branchesPush st.branches ((adjustStep v).branchId.jsToString)
             (adjustStep v)⟩ :=
      processGen_push_state formatCodeReflection st i v h hcond hc1
    rw [hkey] at h0
    exact h0
  refine ⟨?_, ?_, ?_⟩
  · rw [hst1]
    exact branchLookup_push_self st.branches s (adjustStep v)
  · intro k hk
    rw [hst1]
    exact branchLookup_push_ne st.branches s k (adjustStep v) hk
  · intro hnone
    have hb1 : branchLookup ((processCodePlanning st i).1).branches s
        = some ((branchLookup st.branches s).getD [] ++ [adjustStep v]) := by
      rw [hst1]
      exact branchLookup_push_self st.branches s (adjustStep v)
    have hany2 : (((processCodePlanning st i).1).branches.any
        (fun p => p.1 == s)) = true :=
      branchLookup_isSome_any _ _ _ hb1
    have hc2 : (((processCodePlanning st i).1).branches.any
          (fun p => p.1 == (adjustStep v2).branchId.jsToString)
        || !(objectProtoKeys.contains (adjustStep v2).branchId.jsToString))
        = true := by
      rw [hkey2, hany2]
      simp
    have hst2 : (processCodePlanning ((processCodePlanning st i).1) i2).1
        = ⟨((processCodePlanning st i).1).reflectionHistory ++ [adjustStep v2],
           branchesPush ((processCodePlanning st i).1).branches s
             (adjustStep v2)⟩ := by
      have h0 : (processCodePlanning ((processCodePlanning st i).1) i2).1
          = ⟨((processCodePlanning st i).1).reflectionHistory
               ++ [adjustStep v2],
             branchesPush ((processCodePlanning st i).1).branches
               ((adjustStep v2).branchId.jsToString) (adjustStep v2)⟩ :=
        processGen_push_state formatCodeReflection
          ((processCodePlanning st i).1) i2 v2 h2 hcond2 hc2
      rw [hkey2] at h0
      exact h0
    rw [hst2]
    show branchLookup
        (branchesPush ((processCodePlanning st i).1).branches s
          (adjustStep v2)) s = some [adjustStep v, adjustStep v2]
    rw [branchLookup_push_self, hb1, hnone]
    simp

/-- C4 witness: two concrete branching calls with branchId "retry"
(not a prototype key) create the branch with one entry, then extend it
to two entries. -/
theorem recordStep_branch_append_witness :
    branchLookup ((processCodePlanning initialState branchInput).1).branches
        "retry" = some [adjustStep branchV] ∧
    branchLookup
        ((processCodePlanning ((processCodePlanning initialState branchInput).1)
          branchInput).1).branches "retry"
      = some [adjustStep branchV, adjustStep branchV] :=
  ⟨(recordStep_branch_append initialState branchInput branchInput branchV
      branchV "retry" 1 1 rfl rfl (by decide) rfl (by decide) (by decide)
      rfl rfl (by decide) rfl).1,
   (recordStep_branch_append initialState branchInput branchInput branchV
      branchV "retry" 1 1 rfl rfl (by decide) rfl (by decide) (by decide)
      rfl rfl (by decide) rfl).2.2 rfl⟩

/-- C7: the rendering/diagnostic-emit step never influences the stored
state or the returned payload: for any two rendering functions the state
and result components of the operation coincide, and coincide with those
of the actual operation (whose renderer is formatCodeReflection). -/
theorem rendering_noninterference (f g : CodePlanningData → String)
    (st : ServerState) (i : JSInput) :
    (processCodePlanningGen f st i).1 = (processCodePlanningGen g st i).1 ∧
    (processCodePlanningGen f st i).2.1 = (processCodePlanningGen g st i).2.1 ∧
    (processCodePlanningGen f st i).1 = (processCodePlanning st i).1 ∧
    (processCodePlanningGen f st i).2.1 = (processCodePlanning st i).2.1 := by
  unfold processCodePlanning processCodePlanningGen
  cases hv : validateCodePlanningData i with
  | error msg => exact ⟨rfl, rfl, rfl, rfl⟩
  | ok v =>
    dsimp only
    refine ⟨?_, ?_, ?_, ?_⟩ <;>
    · split
      · split <;> rfl
      · rfl

theorem process_preserves_totalSteps_inv (st : ServerState) (i : JSInput)
    (hinv : ∀ d ∈ st.reflectionHistory, d.stepNumber ≤ d.totalSteps) :
    ∀ d ∈ ((processCodePlanning st i).1).reflectionHistory,
      d.stepNumber ≤ d.totalSteps := by
  intro d hd
  cases hv : validateCodePlanningData i with
  | error msg =>
    have hst : (processCodePlanning st i).1 = st := by
      unfold processCodePlanning
      rw [processGen_error formatCodeReflection st i msg hv]
    rw [hst] at hd
    exact hinv d hd
  | ok v =>
    have hh : ((processCodePlanning st i).1).reflectionHistory
        = st.reflectionHistory ++ [adjustStep v] :=
      processGen_ok_history formatCodeReflection st i v hv
    rw [hh, List.mem_append] at hd
    rcases hd with hd | hd
    · exact hinv d hd
    · rw [List.mem_singleton] at hd
      subst hd
      exact adjustStep_le v

/-- C8: after any sequence of recordStep calls from the freshly
constructed server, every step stored in history has
totalSteps ≥ stepNumber. -/
theorem history_totalSteps_invariant (inputs : List JSInput) :
    ∀ d ∈ (runCalls inputs).reflectionHistory,
      d.stepNumber ≤ d.totalSteps := by
  have main : ∀ (l : List JSInput) (st : ServerState),
      (∀ d ∈ st.reflectionHistory, d.stepNumber ≤ d.totalSteps) →
      ∀ d ∈ (l.foldl (fun st i => (processCodePlanning st i).1)
          st).reflectionHistory,
        d.stepNumber ≤ d.totalSteps := by
    intro l
    induction l with
    | nil =>
      intro st h
      simpa using h
    | cons i rest ih =>
      intro st h
      rw [List.foldl_cons]
      exact ih _ (process_preserves_totalSteps_inv st i h)
  exact main inputs initialState (by simp [initialState])

/-- C8 witness: after the concrete sample call the stored (adjusted) step
satisfies the invariant. -/
theorem history_totalSteps_invariant_witness :
    adjustStep sampleV ∈ (runCalls [sampleInput]).reflectionHistory ∧
    (adjustStep sampleV).stepNumber ≤ (adjustStep sampleV).totalSteps := by
  have hmem : adjustStep sampleV ∈ (runCalls [sampleInput]).reflectionHistory := by
    show adjustStep sampleV ∈ [adjustStep sampleV]
    exact List.mem_singleton.mpr rfl
  exact ⟨hmem,
    history_totalSteps_invariant [sampleInput] (adjustStep sampleV) hmem⟩

/-- The context suffix of the header, as both the code and the claim
state it (src/index.ts:74,77,80). -/
def stepContext (d : CodePlanningData) : String :=
  if d.isRevision.truthy then
    " (revising step " ++ d.revisesStep.jsToString ++ ")"
  else if d.branchFromStep.truthy then
    " (from step " ++ d.branchFromStep.jsToString ++ ", ID: "
      ++ d.branchId.jsToString ++ ")"
  else ""

/-- Formalisation of C6's stated label: the plain words "Revision" /
"Alternative" / "Code Step", with no colour codes and no emoji. -/
def claimedLabel (d : CodePlanningData) : String :=
  if d.isRevision.truthy then "Revision"
  else if d.branchFromStep.truthy then "Alternative"
  else "Code Step"

/-- Formalisation of C6's stated header. -/
def claimedHeader (d : CodePlanningData) : String :=
  claimedLabel d ++ " " ++ toString d.stepNumber ++ "/" ++ toString d.totalSteps
    ++ stepContext d

/-- Formalisation of C6's stated border rule:
max(header length, reflection length) + 4 over the plain header. -/
def claimedBorderLen (d : CodePlanningData) : Nat :=
  max (utf16Len (claimedHeader d)) (utf16Len d.codeReflection) + 4

/-- The label the code actually builds: emoji tag wrapped in chalk
colour codes (src/index.ts:72-81). -/
def decoratedLabel (d : CodePlanningData) : String :=
  if d.isRevision.truthy then chalkYellow revisionTag
  else if d.branchFromStep.truthy then chalkGreen alternativeTag
  else chalkBlue codeStepTag

/-- The header the code actually builds (src/index.ts:83). -/
def decoratedHeader (d : CodePlanningData) : String :=
  decoratedLabel d ++ " " ++ toString d.stepNumber ++ "/"
    ++ toString d.totalSteps ++ stepContext d

/-- The border repetition count the code actually uses
(src/index.ts:84-86): over the decorated header, in UTF-16 units. -/
def borderLen (d : CodePlanningData) : Nat :=
  max (utf16Len (decoratedHeader d)) (utf16Len d.codeReflection) + 4

def revisionSample : CodePlanningData :=
  { codeReflection := "a", stepNumber := 1, totalSteps := 1,
    isRevision := .bool true, revisesStep := .num 1,
    branchFromStep := .undefined, branchId := .undefined,
    needsMoreSteps := .undefined, nextStepNeeded := true }

set_option maxRecDepth 4000 in
/-- C6 counterexample: for the concrete revision step
(stepNumber 1, totalSteps 1, revisesStep 1, reflection "a") the rendered
block's border dash count (three borders) is not three times the
claim's border width max(plain header length, reflection length) + 4:
the actual header carries the emoji and ANSI colour codes, so each
border has 47 dashes, not 34. -/
theorem formatCodeReflection_claim_cex :
    (formatCodeReflection revisionSample).data.count '─'
      ≠ 3 * claimedBorderLen revisionSample := by
  decide

/-- C6 (amended): the framed block uses label and suffix by the stated
precedence, but the label is the emoji tag wrapped in chalk colour codes
("🔄 Revision" yellow / "🌿 Alternative" green / "🧩 Code Step" blue);
the header line is "{decoratedLabel} {stepNumber}/{totalSteps}{suffix}"
and the border width is max(decorated header length, reflection length)
+ 4, lengths in UTF-16 code units. -/
theorem formatCodeReflection_box_structure (d : CodePlanningData) :
    formatCodeReflection d =
      "\n┌" ++ repeatChar '─' (borderLen d) ++ "┐\n│ " ++ decoratedHeader d
        ++ " │\n├" ++ repeatChar '─' (borderLen d) ++ "┤\n│ "
        ++ padEnd d.codeReflection (borderLen d - 2) ++ " │\n└"
        ++ repeatChar '─' (borderLen d) ++ "┘" := by
  unfold formatCodeReflection borderLen decoratedHeader decoratedLabel
    stepContext
  by_cases h1 : d.isRevision.truthy = true
  · simp [h1, utf16Len_border]
  · by_cases h2 : d.branchFromStep.truthy = true
    · simp [h1, h2, utf16Len_border]
    · simp [h1, h2, utf16Len_border]
